import Mathlib

/-!
Verification development for the conversational-assistant server
(ai_chat). The definitions below are shallow embeddings of the Python
source under src/: chat memory of BasicMemoryAgent
(agent/agents/basic_memory_agent.py), the tool-mode switch of the agent
loop, the MCP subprocess client (mcpp/mcp_client.py), the wake-word gate
(conversations/wake_word_manager.py), the per-turn message sequence of
process_single_conversation (conversations/single_conversation.py) and
the interrupt handler (conversations/conversation_handler.py).

Python strings are embedded as Lean String, with character-level
operations written over List Char so that every definition reduces in
the kernel. Exceptions are embedded as Except / Option values; the
behaviour of the outside world (LLM provider streams, MCP subprocess
transport) is supplied as explicit environment parameters.
-/

/-! ## Python string primitives (List Char level) -/

/-- Char-list version of the Python substring test `pat in hay`:
`startsWith hay pat` is true when `pat` is a prefix of `hay`. -/
def startsWith : List Char → List Char → Bool
  | _, [] => true
  | [], _ :: _ => false
  | c :: cs, p :: ps => (c == p) && startsWith cs ps

/-- Python `pat in hay` (substring containment). -/
def containsSub (hay pat : List Char) : Bool :=
  match hay with
  | [] => pat.isEmpty
  | _ :: rest => startsWith hay pat || containsSub rest pat

/-- Python `str.lower()` (per-character lowering). -/
def lowerChars (l : List Char) : List Char := l.map Char.toLower

/-- Python `str.strip()`: drop whitespace from both ends. -/
def stripChars (l : List Char) : List Char :=
  ((l.dropWhile Char.isWhitespace).reverse.dropWhile Char.isWhitespace).reverse

/-- Python `str.strip()` on a String. -/
def pyStrip (s : String) : String := String.mk (stripChars s.data)

/-- Python `hay.replace(pat, new, 1)` with `new = ""`: remove the first
occurrence of `pat` (non-empty) from `hay`. -/
def removeFirstOcc : List Char → List Char → List Char
  | [], _ => []
  | c :: rest, pat =>
    if startsWith (c :: rest) pat ∧ pat ≠ [] then (c :: rest).drop pat.length
    else c :: removeFirstOcc rest pat

/-- Python `hay.replace(pat, rep)`: replace every non-overlapping
occurrence of `pat` (non-empty), scanning left to right. -/
def replaceAllChars (pat rep : List Char) : List Char → List Char
  | [] => []
  | c :: rest =>
    if h : startsWith (c :: rest) pat ∧ pat ≠ [] then
      rep ++ replaceAllChars pat rep ((c :: rest).drop pat.length)
    else
      c :: replaceAllChars pat rep rest
termination_by l => l.length
decreasing_by
  · simp only [List.length_drop, List.length_cons]
    have hp : pat.length ≠ 0 := by
      intro h0
      exact h.2 (List.eq_nil_of_length_eq_zero h0)
    omega
  · simp

/-- Python `s.replace(pat, rep)` on Strings. -/
def pyReplaceAll (s pat rep : String) : String :=
  String.mk (replaceAllChars pat.data rep.data s.data)

/-! ## Chat memory of BasicMemoryAgent (basic_memory_agent.py)

One chat-memory entry: the dict built by `_add_message`
(keys role, content, and optional name / avatar). -/

structure ChatMessage where
  role : String
  content : String
  name : Option String
  avatar : Option String
deriving DecidableEq, Repr

/-- `BasicMemoryAgent.MAX_MEMORY_MESSAGES` (basic_memory_agent.py line 39). -/
def MAX_MEMORY_MESSAGES : Nat := 6

/-- The mutable agent fields touched by `_add_message` / `handle_interrupt`:
`_memory`, `_interrupt_handled` and the config value `interrupt_method`. -/
structure AgentState where
  memory : List ChatMessage
  interrupt_handled : Bool
  interrupt_method : String
deriving DecidableEq, Repr

/-- The trim step of `_add_message` (lines 184-186): once the list grows
past `MAX_MEMORY_MESSAGES`, keep only the last `MAX_MEMORY_MESSAGES`
entries (`self._memory[-self.MAX_MEMORY_MESSAGES:]`). -/
def trimMemory (m : List ChatMessage) : List ChatMessage :=
  if MAX_MEMORY_MESSAGES < m.length then m.drop (m.length - MAX_MEMORY_MESSAGES) else m

/-- `BasicMemoryAgent._add_message` (lines 137-186), for a plain string
message (every call site in the file passes a string, so the list-of-parts
extraction branch is not exercised). Steps, in source order: return when
`skip_memory`; return when the text is empty and the role is assistant;
build the message dict (name / avatar only when provided); skip when the
last entry has the same role and content; append and trim to the cap. -/
def add_message_memory (memory : List ChatMessage) (message : String) (role : String)
    (dname davatar : Option String) : List ChatMessage :=
  let text_content := message
  if text_content = "" ∧ role = "assistant" then memory
  else
    let message_data : ChatMessage := ⟨role, text_content, dname, davatar⟩
    match memory.getLast? with
    | some last =>
      if last.role = role ∧ last.content = text_content then memory
      else trimMemory (memory ++ [message_data])
    | none => trimMemory (memory ++ [message_data])

/-- `_add_message` lifted to the agent state; only `_memory` changes. -/
def add_message (st : AgentState) (message : String) (role : String)
    (dname davatar : Option String) (skip_memory : Bool) : AgentState :=
  if skip_memory then st
  else { st with memory := add_message_memory st.memory message role dname davatar }

/-- `BasicMemoryAgent.handle_interrupt` (lines 207-235). Guarded by
`_interrupt_handled`; truncates the trailing assistant entry to
`heard_response + "..."` (both branches of the source `endswith` check
assign the same value), or appends such an entry when the last entry is
not an assistant one and `heard_response` is non-empty; finally appends
the `[Interrupted by user]` marker with role `system` when
`interrupt_method == "system"` and role `user` otherwise. The marker is
appended directly to `self._memory`, not through `_add_message`. -/
def interrupted_memory (memory : List ChatMessage) (heard_response : String) :
    List ChatMessage :=
  match memory.getLast? with
  | some last =>
    if last.role = "assistant" then
      memory.dropLast ++ [{ last with content := heard_response ++ "..." }]
    else if heard_response ≠ "" then
      memory ++ [⟨"assistant", heard_response ++ "...", none, none⟩]
    else memory
  | none =>
    if heard_response ≠ "" then
      memory ++ [⟨"assistant", heard_response ++ "...", none, none⟩]
    else memory

/-- `handle_interrupt` lifted to the agent state: when the flag is clear,
set it, rewrite the tail of the memory and append the marker. -/
def handle_interrupt (st : AgentState) (heard_response : String) : AgentState :=
  if st.interrupt_handled then st
  else
    let interrupt_role := if st.interrupt_method = "system" then "system" else "user"
    { st with
      interrupt_handled := true,
      memory := interrupted_memory st.memory heard_response ++
        [⟨interrupt_role, "[Interrupted by user]", none, none⟩] }

/-- A memory-mutating operation of the agent: an append through
`_add_message` or an interrupt through `handle_interrupt`. -/
inductive MemOp
  | add (message : String) (role : String)
  | interrupt (heard_response : String)
deriving DecidableEq, Repr

/-- Apply one memory operation. -/
def memStep (st : AgentState) : MemOp → AgentState
  | .add message role => add_message st message role none none false
  | .interrupt heard => handle_interrupt st heard

/-- Run a sequence of memory operations from a fresh agent (empty memory,
interrupt flag clear) configured with the given `interrupt_method`. -/
def run_mem_ops (im : String) (ops : List MemOp) : AgentState :=
  ops.foldl memStep ⟨[], false, im⟩

/-- Two consecutive entries violate the no-adjacent-duplicates property
when they share both role and content. -/
def okPair (a b : ChatMessage) : Bool :=
  decide (¬ (a.role = b.role ∧ a.content = b.content))

/-- No two consecutive entries share both role and content. -/
def noAdjDup : List ChatMessage → Bool
  | [] => true
  | [_] => true
  | a :: b :: rest => okPair a b && noAdjDup (b :: rest)

/-! ## Tool-mode switch of the agent loop (basic_memory_agent.py)

`chat_with_memory` (line 501) sets `self.prompt_mode_flag = False` at the
start of every turn; `_openai_tool_interaction_loop` (lines 314-396)
chooses per provider call whether to pass the native tool schemas
(`tools_for_api = tools` when the flag is clear, `None` when set) and
sets the flag on observing the `__API_NOT_SUPPORT_TOOLS__` sentinel.
The embedding covers the text-delta and sentinel paths of the loop; the
tool-call execution paths do not touch `prompt_mode_flag` and are not
needed by the properties proved here. -/

/-- One event of the provider stream, as far as the mode switch is
concerned: a text delta, or the unsupported-tools sentinel (a plain
string in the source, hence treated as text once in prompt mode). -/
inductive LLMEvent
  | textDelta (s : String)
  | apiNotSupportTools
deriving DecidableEq, Repr

/-- The agent fields deciding the native-vs-prompt tool mode:
`prompt_mode_flag` and the pre-formatted OpenAI tool schemas captured at
construction (`_formatted_tools_openai`). -/
structure ToolAgent where
  prompt_mode_flag : Bool
  formatted_tools_openai : List String
deriving DecidableEq, Repr

/-- The per-turn reset `self.prompt_mode_flag = False` at the top of
`chat_with_memory` (line 501). -/
def start_turn (a : ToolAgent) : ToolAgent := { a with prompt_mode_flag := false }

/-- The `tools_for_api` choice at the top of each loop iteration
(lines 315-326): `None` in prompt mode, the native schemas otherwise. -/
def tools_for_api (a : ToolAgent) : Option (List String) :=
  if a.prompt_mode_flag then none else some a.formatted_tools_openai

/-- Consume one provider stream (lines 337-394). Returns the updated
agent and whether the loop continues with another provider call: the
sentinel in native mode sets `prompt_mode_flag` and restarts the loop
(`goto_next_while_iteration`); a stream of plain text ends the turn. In
prompt mode the sentinel is an ordinary string event. -/
def consume_stream (a : ToolAgent) : List LLMEvent → ToolAgent × Bool
  | [] => (a, false)
  | .textDelta _ :: rest => consume_stream a rest
  | .apiNotSupportTools :: rest =>
    if a.prompt_mode_flag then consume_stream a rest
    else ({ a with prompt_mode_flag := true }, true)

/-- The provider-call loop of `_openai_tool_interaction_loop`: one entry
of `streams` is the event stream of one provider call. Returns the final
agent and, per provider call actually made, the `tools` argument passed. -/
def interaction_loop : ToolAgent → List (List LLMEvent) → ToolAgent × List (Option (List String))
  | a, [] => (a, [])
  | a, stream :: rest =>
    let passed := tools_for_api a
    match consume_stream a stream with
    | (a1, true) =>
      let next := interaction_loop a1 rest
      (next.1, passed :: next.2)
    | (a1, false) => (a1, [passed])

/-- One full turn: the per-turn flag reset followed by the provider-call
loop. -/
def run_turn (a : ToolAgent) (streams : List (List LLMEvent)) :
    ToolAgent × List (Option (List String)) :=
  interaction_loop (start_turn a) streams

/-! ## MCP client (mcpp/mcp_client.py) -/

/-- A Python exception of the client, as rendered into the structured
error text. -/
inductive PyError
  | valueError (msg : String)
  | runtimeError (msg : String)
  | closedResource
  | generic (msg : String)
deriving DecidableEq, Repr

/-- The text the source interpolates for the error
(`f-string of last_error`). -/
def PyError.text : PyError → String
  | .valueError m => m
  | .runtimeError m => m
  | .closedResource => "ClosedResourceError"
  | .generic m => m

/-- One content item of an MCP tool response (mcp.types); only the
`type` tag and optional `text` attribute matter to the client code
modelled here. -/
structure RespItem where
  type : String
  text : Option String
deriving DecidableEq, Repr

/-- An MCP `call_tool` response: `isError`, `content`, `metadata`. -/
structure ToolResponse where
  isError : Bool
  content : List RespItem
  metadata : List (String × String)
deriving DecidableEq, Repr

/-- One item of the `content_items` list returned by
`MCPClient.call_tool`. -/
structure ContentItem where
  type : String
  text : Option String
deriving DecidableEq, Repr

/-- The dict returned by `MCPClient.call_tool`: always carries the keys
`metadata` and `content_items`. -/
structure ToolCallResult where
  metadata : List (String × String)
  content_items : List ContentItem
deriving DecidableEq, Repr

/-- The mutable state of MCPClient: `active_sessions` (server names with
a live session), `_list_tools_cache` (server name to cached tool names)
and the read-only server registry. -/
structure MCPState where
  active_sessions : List String
  list_tools_cache : List (String × List String)
  registry : List String
deriving DecidableEq, Repr

/-- `_ensure_server_running_and_get_session` (lines 40-97): an existing
session is returned as is; otherwise an unregistered name raises
ValueError, and a spawn (whose success the environment decides via
`spawnOk`) either registers the session or raises RuntimeError. -/
def ensure_session (st : MCPState) (server_name : String) (spawnOk : Bool) :
    MCPState × Option PyError :=
  if server_name ∈ st.active_sessions then (st, none)
  else if server_name ∉ st.registry then
    (st, some (.valueError ("MCPC: Server " ++ server_name ++ " not found in available servers.")))
  else if spawnOk then
    ({ st with active_sessions := st.active_sessions ++ [server_name] }, none)
  else
    (st, some (.runtimeError ("MCPC: Failed to connect to server " ++ server_name ++ ".")))

/-- What the environment makes one `session.call_tool` attempt do:
raise `ClosedResourceError`, raise a generic exception, or return a
response. -/
inductive CallOutcome
  | closed
  | err (msg : String)
  | ok (resp : ToolResponse)
deriving Repr

/-- Environment for one attempt of `call_tool`: whether a needed spawn
succeeds, and the outcome of the session call. -/
structure AttemptEnv where
  spawnOk : Bool
  outcome : CallOutcome
deriving Repr

/-- One attempt of the `call_tool` retry loop: get (or create) the
session, then perform the call; every raised exception is propagated as
an `Except.error` value. -/
def call_attempt (st : MCPState) (server_name : String) (e : AttemptEnv) :
    MCPState × Except PyError ToolResponse :=
  match ensure_session st server_name e.spawnOk with
  | (st1, some ex) => (st1, .error ex)
  | (st1, none) =>
    match e.outcome with
    | .closed => (st1, .error .closedResource)
    | .err m => (st1, .error (.generic m))
    | .ok r => (st1, .ok r)

/-- Session eviction in the exception handlers of `call_tool`
(lines 160-176): the broken session is removed from `active_sessions`.
The list-tools cache is deliberately untouched, exactly as in the
source, which deletes only the session there. -/
def evict_session (st : MCPState) (server_name : String) : MCPState :=
  { st with active_sessions := st.active_sessions.filter (fun s => decide (¬ s = server_name)) }

/-- Cache eviction in the failure handler of `list_tools`
(lines 124-125). -/
def evict_cache (st : MCPState) (server_name : String) : MCPState :=
  { st with list_tools_cache := st.list_tools_cache.filter (fun p => decide (¬ p.1 = server_name)) }

/-- The error text extracted from an `isError` response (line 186-188):
the text of the first content item, else a fixed fallback. -/
def respErrText (resp : ToolResponse) : String :=
  match resp.content.head? with
  | some it =>
    match it.text with
    | some t => t
    | none => "Unknown server error"
  | none => "Unknown server error"

/-- Building the returned dict from a response the session delivered
(lines 185-215): an `isError` response becomes a single structured error
item; otherwise the content items are copied, with a single empty text
item substituted for an empty content list. -/
def build_result (resp : ToolResponse) : ToolCallResult :=
  if resp.isError then
    { metadata := resp.metadata, content_items := [⟨"error", some (respErrText resp)⟩] }
  else
    { metadata := resp.metadata,
      content_items :=
        match resp.content with
        | [] => [⟨"text", some ""⟩]
        | items => items.map (fun it => ⟨it.type, it.text⟩) }

/-- Result of `MCPClient.call_tool` together with the number of attempts
the retry loop actually made. -/
structure CallToolOut where
  state : MCPState
  result : ToolCallResult
  attempts : Nat
deriving Repr

/-- `MCPClient.call_tool` (lines 138-215): at most two attempts; after a
first attempt that raised any exception (transport or generic) the
session is evicted and one retry is made; when both attempts raise, the
error is returned as a structured value and never re-raised. -/
def call_tool (st : MCPState) (server_name tool_name : String) (env : Nat → AttemptEnv) :
    CallToolOut :=
  match call_attempt st server_name (env 1) with
  | (st1, .ok resp) => ⟨st1, build_result resp, 1⟩
  | (st1, .error _) =>
    let st1e := evict_session st1 server_name
    match call_attempt st1e server_name (env 2) with
    | (st2, .ok resp) => ⟨st2, build_result resp, 2⟩
    | (st2, .error e2) =>
      ⟨evict_session st2 server_name,
       { metadata := [], content_items := [⟨"error", some e2.text⟩] }, 2⟩

/-- Environment for one attempt of `list_tools`: whether a needed spawn
succeeds, and the outcome of `session.list_tools` (error text or the
tool names). -/
structure ListAttemptEnv where
  spawnOk : Bool
  outcome : Except String (List String)
deriving Repr

/-- One attempt of the `list_tools` retry loop. -/
def list_attempt (st : MCPState) (server_name : String) (e : ListAttemptEnv) :
    MCPState × Except PyError (List String) :=
  match ensure_session st server_name e.spawnOk with
  | (st1, some ex) => (st1, .error ex)
  | (st1, none) =>
    match e.outcome with
    | .error m => (st1, .error (.generic m))
    | .ok tools => (st1, .ok tools)

/-- Association lookup in the list-tools cache. -/
def cacheLookup : List (String × List String) → String → Option (List String)
  | [], _ => none
  | p :: rest, k => if p.1 = k then some p.2 else cacheLookup rest k

/-- Python dict assignment `cache[k] = v`. -/
def cacheSet (c : List (String × List String)) (k : String) (v : List String) :
    List (String × List String) :=
  if (cacheLookup c k).isSome then
    c.map (fun p => if p.1 = k then (k, v) else p)
  else c ++ [(k, v)]

/-- The retry loop of `list_tools` (lines 109-136), one environment entry
per remaining attempt: a successful attempt stores the listing in the
cache and returns it; a failed attempt evicts the cache entry and the
session, then retries, and the last failure re-raises. -/
def list_tools_loop (server_name : String) :
    MCPState → List ListAttemptEnv → MCPState × Except PyError (List String)
  | st, [] => (st, .error (.generic "MCPC: retries exhausted"))
  | st, e :: rest =>
    match list_attempt st server_name e with
    | (st1, .ok tools) =>
      ({ st1 with list_tools_cache := cacheSet st1.list_tools_cache server_name tools },
       .ok tools)
    | (st1, .error ex) =>
      let st2 := evict_session (evict_cache st1 server_name) server_name
      match rest with
      | [] => (st2, .error ex)
      | _ :: _ => list_tools_loop server_name st2 rest

/-- `MCPClient.list_tools` (lines 99-136): a cache hit returns
immediately; a miss runs up to `max_retries = 3` attempts. -/
def list_tools (st : MCPState) (server_name : String) (env : Nat → ListAttemptEnv) :
    MCPState × Except PyError (List String) :=
  match cacheLookup st.list_tools_cache server_name with
  | some tools => (st, .ok tools)
  | none => list_tools_loop server_name st [env 1, env 2, env 3]

/-- The cache/session invariant of the spec: every server with a cache
entry has a live session. -/
def CacheInv (st : MCPState) : Prop :=
  ∀ p ∈ st.list_tools_cache, p.1 ∈ st.active_sessions

instance (st : MCPState) : Decidable (CacheInv st) :=
  inferInstanceAs (Decidable (∀ p ∈ st.list_tools_cache, p.1 ∈ st.active_sessions))

/-- Whether the source `call_tool` ends in a failure: both attempts
raise, or the delivered response reports `isError`. -/
def call_failed (st : MCPState) (server_name : String) (env : Nat → AttemptEnv) : Bool :=
  match call_attempt st server_name (env 1) with
  | (_, .ok resp) => resp.isError
  | (st1, .error _) =>
    match call_attempt (evict_session st1 server_name) server_name (env 2) with
    | (_, .ok resp) => resp.isError
    | (_, .error _) => true

/-- Whether the first attempt of `call_tool` raises. -/
def first_attempt_errors (st : MCPState) (server_name : String) (env : Nat → AttemptEnv) : Bool :=
  match call_attempt st server_name (env 1) with
  | (_, .ok _) => false
  | (_, .error _) => true

/-! ## Wake-word gate (conversations/wake_word_manager.py) -/

/-- An apostrophe, written via its code point to keep string literals
plain. -/
def apos : String := (Char.ofNat 39).toString

/-- The multilingual wake-word table of `WakeWordManager.__init__`,
in dict insertion order: chinese, english, japanese. -/
def wake_words : List (String × List String) :=
  [("chinese", ["艾莉亚", "嘿艾莉亚", "你好艾莉亚", "艾莉亚同学",
                "艾莉亚酱", "小雅", "小助手", "Aria"]),
   ("english", ["Aria", "Hey Aria", "Hello Aria", "Assistant",
                "Hey assistant", "Computer", "AI"]),
   ("japanese", ["こんにちは", "アリア", "アリアちゃん", "アシスタント", "こんにちはアリア",
                 "助手", "おーい", "ねえ"])]

/-- The multilingual end-word table of `WakeWordManager.__init__`. -/
def end_words : List (String × List String) :=
  [("chinese", ["结束", "再见", "拜拜", "停止", "结束对话", "谢谢",
                "不聊了", "够了", "好了", "结束吧", "下次见"]),
   ("english", ["goodbye", "bye", "end", "stop", "finish", "thanks",
                "that" ++ apos ++ "s all", "see you", "later", "quit", "exit"]),
   ("japanese", ["さようなら", "バイバイ", "終わり", "停止", "やめて",
                 "ありがとう", "また今度", "じゃあね", "おつかれ", "終了"])]

/-- Scan one language word list: chinese and japanese words are matched
case-sensitively (`word in text`), english words case-insensitively
(`word.lower() in text.lower()`), as in `check_wake_words` /
`check_end_words` (lines 85-122). -/
def findWord (text : String) (language : String) : List String → Option (String × String)
  | [] => none
  | w :: rest =>
    let hit :=
      if language = "chinese" ∨ language = "japanese" then
        containsSub text.data w.data
      else
        containsSub (lowerChars text.data) (lowerChars w.data)
    if hit then some (w, language) else findWord text language rest

/-- Scan the language tables in dict order and return the first match. -/
def checkWords : List (String × List String) → String → Option (String × String)
  | [], _ => none
  | (language, ws) :: rest, text =>
    match findWord text language ws with
    | some r => some r
    | none => checkWords rest text

/-- `WakeWordManager.check_wake_words` (lines 85-103). -/
def check_wake_words (text : String) : Option (String × String) :=
  checkWords wake_words text

/-- `WakeWordManager.check_end_words` (lines 105-122). -/
def check_end_words (text : String) : Option (String × String) :=
  checkWords end_words text

/-- `WakeWordManager._extract_remaining_text` (lines 211-217): remove
the first occurrence of the wake word, strip, then drop the leading run
matched by the regex `[,，。、 and whitespace]+` anchored at the start. -/
def extract_remaining_text (original_text wake_word : String) : String :=
  let remaining := stripChars (removeFirstOcc original_text.data wake_word.data)
  String.mk (remaining.dropWhile
    (fun c => c = ',' ∨ c = '，' ∨ c = '。' ∨ c = '、' ∨ c.isWhitespace))

/-- `WakeWordManager.get_welcome_message` (lines 124-131); the language
lookup falls back to the chinese message. -/
def get_welcome_message (wake_word language : String) : String :=
  if language = "english" then
    "Hello! I" ++ apos ++ "m " ++
      pyReplaceAll (pyReplaceAll wake_word "Hey " "") "Hello " "" ++
      ", how can I help you?"
  else if language = "japanese" then
    "こんにちは！" ++ pyReplaceAll wake_word "こんにちは" "" ++
      "です。何かお手伝いできることはありますか？"
  else
    "你好！我是" ++ pyReplaceAll (pyReplaceAll wake_word "嘿" "") "你好" "" ++
      "，有什么可以帮你的吗？"

/-- `WakeWordManager.get_goodbye_message` (lines 133-140); the language
lookup falls back to the chinese message. -/
def get_goodbye_message (language : String) : String :=
  if language = "english" then "Alright, goodbye! Call me anytime you need help."
  else if language = "japanese" then "はい、さようなら！何かあったらいつでも呼んでくださいね。"
  else "好的，再见！有需要随时叫我。"

/-- The ignored-event preview (line 186): the first 50 characters with a
"..." suffix when the text is longer. -/
def truncPreview (s : String) : String :=
  if 50 < s.data.length then String.mk (s.data.take 50) ++ "..." else s

/-- Outcome of `WakeWordManager.process_transcription` for one
connection: the returned pair, the updated wake state of the connection
and the wake-word-state events sent (action, matched word, language).
The statistics counters and the advertisement-control hint attached to
each event are derived data and not modelled. -/
structure WakeOutcome where
  should_process : Bool
  processed_text : String
  new_state : String
  events : List (String × String × String)
deriving DecidableEq, Repr

/-- `WakeWordManager.process_transcription` (lines 142-209), with the
global enable flag and the current per-connection state passed
explicitly. -/
def process_transcription (enabled : Bool) (state : String) (text : String) : WakeOutcome :=
  if ¬ enabled then ⟨true, text, state, []⟩
  else
    let original_text := pyStrip text
    if state = "listening" then
      match check_wake_words original_text with
      | some (wake_word, language) =>
        let remaining_text := extract_remaining_text original_text wake_word
        if remaining_text ≠ "" then
          ⟨true, remaining_text, "active", [("wake_up", wake_word, language)]⟩
        else
          ⟨true, get_welcome_message wake_word language, "active",
           [("wake_up", wake_word, language)]⟩
      | none =>
        ⟨false, "", "listening", [("ignored", truncPreview original_text, "unknown")]⟩
    else if state = "active" then
      match check_end_words original_text with
      | some (end_word, language) =>
        ⟨true, get_goodbye_message language, "listening", [("sleep", end_word, language)]⟩
      | none => ⟨true, original_text, "active", []⟩
    else ⟨true, original_text, state, []⟩

/-! ## Per-turn message sequence (conversations/single_conversation.py)

`process_single_conversation` sends the start signals, forwards the
agent output items (tool status dicts directly, sentence outputs through
`process_agent_output`, which schedules one TTS task per sentence on the
TTSTaskManager), sends `backend-synth-complete` only under the guard
`if tts_manager.task_list:` (line 168), and then finalizes the turn. -/

/-- One item of the agent output stream reaching the orchestrator loop. -/
inductive AgentItem
  | sentence (text : String)
  | toolStatus (payload : String)
deriving DecidableEq, Repr

/-- One message the orchestrator sends to the client during a turn. -/
inductive OutMsg
  | conversationStart
  | sentenceAudio (text : String)
  | toolCallStatus (payload : String)
  | backendSynthComplete
  | turnEnd
deriving DecidableEq, Repr

/-- Modelled from the spec: `send_conversation_start_signals`
(conversation_utils.py, not under src/) signals conversation-start to
the client exactly once at the beginning of the turn. -/
def conversation_start_msgs : List OutMsg := [.conversationStart]

/-- Modelled from the spec: `finalize_conversation_turn`
(conversation_utils.py, not under src/) emits the turn-end signal
exactly once. -/
def finalize_msgs : List OutMsg := [.turnEnd]

/-- Modelled from the spec: `process_agent_output`
(conversation_utils.py, not under src/) sends each sentence output to
the client and schedules one TTS task for it; tool status dicts are sent
directly by the loop in single_conversation.py (lines 115-124). -/
def agent_item_msgs : AgentItem → List OutMsg
  | .sentence t => [.sentenceAudio t]
  | .toolStatus p => [.toolCallStatus p]

/-- Number of TTS tasks on `tts_manager.task_list` at the end of the
agent stream: one per sentence output. -/
def tts_task_count (outputs : List AgentItem) : Nat :=
  (outputs.filter (fun it => match it with | .sentence _ => true | _ => false)).length

/-- The messages a successful turn of `process_single_conversation`
sends, given the agent output stream (lines 53-179): start signals, the
per-item outputs, `backend-synth-complete` only when the TTS task list
is non-empty, then the turn end. -/
def process_single_conversation_msgs (outputs : List AgentItem) : List OutMsg :=
  conversation_start_msgs
    ++ outputs.flatMap agent_item_msgs
    ++ (if 0 < tts_task_count outputs then [.backendSynthComplete] else [])
    ++ finalize_msgs

/-! ## Interrupt handler (conversations/conversation_handler.py) -/

/-- One persisted chat-history entry, as written by `store_message`. -/
structure HistoryEntry where
  role : String
  content : String
  name : Option String
  avatar : Option String
deriving DecidableEq, Repr

/-- Modelled from the spec: `store_message` (chat_history_manager.py,
not under src/) appends one message to the history persisted per
(conf_uid, history_uid). `handle_individual_interrupt`
(conversation_handler.py lines 101-132): when the client has a recorded
conversation task, cancel it, let the agent handle the interrupt, and,
when history is enabled, persist the raw heard response as a role-ai
message followed by a role-system `[Interrupted by user]` marker. -/
def handle_individual_interrupt (has_task : Bool) (history_enabled : Bool)
    (agent : AgentState) (history : List HistoryEntry) (heard_response : String)
    (char_name : String) (char_avatar : Option String) :
    AgentState × List HistoryEntry :=
  if has_task then
    let agent1 := handle_interrupt agent heard_response
    let history1 :=
      if history_enabled then
        history ++ [⟨"ai", heard_response, some char_name, char_avatar⟩,
                    ⟨"system", "[Interrupted by user]", none, none⟩]
      else history
    (agent1, history1)
  else (agent, history)

/-- The inductive invariant behind the amended memory-cap claim: a capped
memory while no interrupt has been absorbed, and at most two entries of
slack afterwards. -/
def MemInv (st : AgentState) : Prop :=
  (st.interrupt_handled = false → st.memory.length ≤ MAX_MEMORY_MESSAGES) ∧
  st.memory.length ≤ MAX_MEMORY_MESSAGES + 2

/-- One full call of `_add_message`, with all optional arguments. -/
structure AddCall where
  message : String
  role : String
  dname : Option String
  davatar : Option String
  skip_memory : Bool
deriving DecidableEq, Repr

/-- Run a sequence of `_add_message` calls from a fresh agent. -/
def run_adds (im : String) (calls : List AddCall) : AgentState :=
  calls.foldl
    (fun st c => add_message st c.message c.role c.dname c.davatar c.skip_memory)
    ⟨[], false, im⟩

/-! ## Helper lemmas: chat memory -/

theorem add_message_flag (st : AgentState) (m r : String) (dn da : Option String) (sk : Bool) :
    (add_message st m r dn da sk).interrupt_handled = st.interrupt_handled := by
  unfold add_message
  split
  · rfl
  · rfl

theorem trim_concat_length (l : List ChatMessage) (x : ChatMessage) :
    (trimMemory (l ++ [x])).length ≤ MAX_MEMORY_MESSAGES := by
  unfold trimMemory
  split
  · rename_i h
    simp only [MAX_MEMORY_MESSAGES, List.length_append, List.length_cons, List.length_nil,
      List.length_drop] at h ⊢
    omega
  · rename_i h
    simp only [MAX_MEMORY_MESSAGES, List.length_append, List.length_cons, List.length_nil,
      Nat.not_lt] at h ⊢
    omega

theorem trim_concat (l : List ChatMessage) (x : ChatMessage) :
    ∃ l', trimMemory (l ++ [x]) = l' ++ [x] := by
  unfold trimMemory
  split
  · rename_i h
    refine ⟨l.drop ((l ++ [x]).length - MAX_MEMORY_MESSAGES), ?_⟩
    rw [List.drop_append_of_le_length]
    simp only [MAX_MEMORY_MESSAGES, List.length_append, List.length_cons, List.length_nil] at h ⊢
    omega
  · exact ⟨l, rfl⟩

theorem add_message_memory_length (mem : List ChatMessage) (m r : String)
    (dn da : Option String) :
    (add_message_memory mem m r dn da).length ≤ max MAX_MEMORY_MESSAGES mem.length := by
  unfold add_message_memory
  by_cases h1 : m = "" ∧ r = "assistant"
  · rw [if_pos h1]
    exact Nat.le_max_right _ _
  · rw [if_neg h1]
    dsimp only
    cases hlast : mem.getLast? with
    | none => exact le_trans (trim_concat_length _ _) (Nat.le_max_left _ _)
    | some last =>
      dsimp only
      by_cases h2 : last.role = r ∧ last.content = m
      · rw [if_pos h2]
        exact Nat.le_max_right _ _
      · rw [if_neg h2]
        exact le_trans (trim_concat_length _ _) (Nat.le_max_left _ _)

theorem add_message_length (st : AgentState) (m r : String) (dn da : Option String) (sk : Bool) :
    (add_message st m r dn da sk).memory.length ≤ max MAX_MEMORY_MESSAGES st.memory.length := by
  unfold add_message
  split
  · exact Nat.le_max_right _ _
  · exact add_message_memory_length st.memory m r dn da

theorem interrupted_memory_length (mem : List ChatMessage) (heard : String) :
    (interrupted_memory mem heard).length ≤ mem.length + 1 := by
  unfold interrupted_memory
  cases hlast : mem.getLast? with
  | none =>
    dsimp only
    split
    · simp
    · omega
  | some last =>
    dsimp only
    split
    · simp only [List.length_append, List.length_cons, List.length_nil, List.length_dropLast]
      omega
    · split
      · simp
      · omega

theorem handle_interrupt_length (st : AgentState) (heard : String) :
    (handle_interrupt st heard).memory.length ≤ st.memory.length + 2 := by
  unfold handle_interrupt
  split
  · omega
  · have := interrupted_memory_length st.memory heard
    simp only [List.length_append, List.length_cons, List.length_nil]
    omega

theorem handle_interrupt_flag (st : AgentState) (heard : String) :
    (handle_interrupt st heard).interrupt_handled = true := by
  unfold handle_interrupt
  split
  · assumption
  · rfl

theorem handle_interrupt_of_handled (st : AgentState) (heard : String)
    (h : st.interrupt_handled = true) : handle_interrupt st heard = st := by
  unfold handle_interrupt
  simp [h]

theorem memStep_inv (st : AgentState) (op : MemOp) (h : MemInv st) : MemInv (memStep st op) := by
  obtain ⟨h1, h2⟩ := h
  cases op with
  | add m r =>
    refine ⟨?_, ?_⟩
    · intro hf
      rw [memStep, add_message_flag] at hf
      have hlen := add_message_length st m r none none false
      have := h1 hf
      simp only [memStep]
      omega
    · have hlen := add_message_length st m r none none false
      simp only [memStep]
      omega
  | interrupt heard =>
    by_cases hf : st.interrupt_handled = true
    · simp only [memStep, handle_interrupt_of_handled st heard hf]
      exact ⟨h1, h2⟩
    · have hf' : st.interrupt_handled = false := by
        cases hv : st.interrupt_handled
        · rfl
        · exact absurd hv hf
      refine ⟨?_, ?_⟩
      · intro hcontra
        rw [memStep, handle_interrupt_flag] at hcontra
        cases hcontra
      · have := handle_interrupt_length st heard
        have := h1 hf'
        simp only [memStep]
        omega

theorem run_mem_ops_inv (im : String) (ops : List MemOp) : MemInv (run_mem_ops im ops) := by
  have hbase : MemInv ⟨[], false, im⟩ := by
    constructor
    · intro _
      simp [MAX_MEMORY_MESSAGES]
    · simp
  rw [run_mem_ops]
  generalize hst : (⟨[], false, im⟩ : AgentState) = st0
  rw [hst] at hbase
  clear hst
  induction ops generalizing st0 with
  | nil => exact hbase
  | cons op rest ih =>
    simp only [List.foldl_cons]
    exact ih _ (memStep_inv _ _ hbase)

theorem noAdjDup_tail (l : List ChatMessage) (h : noAdjDup l = true) :
    noAdjDup l.tail = true := by
  match l with
  | [] => exact h
  | [_] => rfl
  | a :: b :: rest =>
    simp only [noAdjDup, Bool.and_eq_true] at h
    exact h.2

theorem noAdjDup_drop (n : Nat) : ∀ l : List ChatMessage,
    noAdjDup l = true → noAdjDup (l.drop n) = true := by
  induction n with
  | zero => intro l h; exact h
  | succ n ih =>
    intro l h
    match l with
    | [] => exact h
    | a :: as =>
      rw [List.drop_succ_cons]
      exact ih as (noAdjDup_tail (a :: as) h)

theorem noAdjDup_concat : ∀ (l : List ChatMessage) (x : ChatMessage),
    noAdjDup l = true → (∀ y, l.getLast? = some y → okPair y x = true) →
    noAdjDup (l ++ [x]) = true
  | [], x, _, _ => rfl
  | [a], x, _, hlast => by
    have hp := hlast a rfl
    simp only [List.cons_append, List.nil_append, noAdjDup, Bool.and_eq_true]
    exact ⟨hp, trivial⟩
  | a :: b :: rest, x, h, hlast => by
    simp only [noAdjDup, Bool.and_eq_true] at h
    have ih := noAdjDup_concat (b :: rest) x h.2
      (fun y hy => hlast y (by rw [List.getLast?_cons_cons]; exact hy))
    simp only [List.cons_append, noAdjDup, Bool.and_eq_true] at ih ⊢
    exact ⟨h.1, ih⟩

theorem noAdjDup_trim (l : List ChatMessage) (h : noAdjDup l = true) :
    noAdjDup (trimMemory l) = true := by
  unfold trimMemory
  split
  · exact noAdjDup_drop _ l h
  · exact h

theorem add_message_memory_noAdjDup (mem : List ChatMessage) (m r : String)
    (dn da : Option String) (h : noAdjDup mem = true) :
    noAdjDup (add_message_memory mem m r dn da) = true := by
  unfold add_message_memory
  by_cases h1 : m = "" ∧ r = "assistant"
  · rw [if_pos h1]
    exact h
  · rw [if_neg h1]
    dsimp only
    cases hlast : mem.getLast? with
    | none =>
      apply noAdjDup_trim
      apply noAdjDup_concat mem _ h
      intro y hy
      rw [hlast] at hy
      cases hy
    | some last =>
      dsimp only
      by_cases h2 : last.role = r ∧ last.content = m
      · rw [if_pos h2]
        exact h
      · rw [if_neg h2]
        apply noAdjDup_trim
        apply noAdjDup_concat mem _ h
        intro y hy
        rw [hlast] at hy
        cases hy
        simp only [okPair, decide_eq_true_eq]
        exact h2

theorem add_message_noAdjDup (st : AgentState) (m r : String) (dn da : Option String)
    (sk : Bool) (h : noAdjDup st.memory = true) :
    noAdjDup (add_message st m r dn da sk).memory = true := by
  unfold add_message
  split
  · exact h
  · exact add_message_memory_noAdjDup st.memory m r dn da h


/-! ## Claim C1: chat-memory cap -/

/-- C1 counterexample: the claimed invariant (at most MAX_MEMORY_MESSAGES
entries after every memory-mutating operation, from empty memory) fails:
six appends followed by one handled interrupt leave seven entries,
because `handle_interrupt` appends directly without trimming. -/
theorem c1_memory_cap_counterexample :
    MAX_MEMORY_MESSAGES = 6 ∧
    ¬ ((run_mem_ops "user"
        [.add "a" "user", .add "b" "assistant", .add "c" "user",
         .add "d" "assistant", .add "e" "user", .add "f" "assistant",
         .interrupt "x"]).memory.length ≤ MAX_MEMORY_MESSAGES) := by
  constructor
  · rfl
  · decide

/-- C1 amended: starting from empty memory, every sequence of
`_add_message` appends and `handle_interrupt` interrupts keeps the chat
memory at `MAX_MEMORY_MESSAGES + 2` entries or fewer; each `_add_message`
by itself never leaves the memory above `max MAX_MEMORY_MESSAGES
(previous length)` (so above the cap only if it already was); and each
mutating operation that changes the state leaves the entry it appended as
the last element (the built message for `_add_message`, the interrupt
marker for `handle_interrupt`). -/
theorem c1_memory_cap_amended :
    (∀ im ops, (run_mem_ops im ops).memory.length ≤ MAX_MEMORY_MESSAGES + 2) ∧
    (∀ st m r dn da sk,
      (add_message st m r dn da sk).memory.length ≤ max MAX_MEMORY_MESSAGES st.memory.length) ∧
    (∀ st m r dn da sk, add_message st m r dn da sk = st ∨
      (add_message st m r dn da sk).memory.getLast? = some ⟨r, m, dn, da⟩) ∧
    (∀ st heard, handle_interrupt st heard = st ∨
      (handle_interrupt st heard).memory.getLast? =
        some ⟨(if st.interrupt_method = "system" then "system" else "user"),
              "[Interrupted by user]", none, none⟩) := by
  refine ⟨?_, ?_, ?_, ?_⟩
  · intro im ops
    exact (run_mem_ops_inv im ops).2
  · intro st m r dn da sk
    exact add_message_length st m r dn da sk
  · intro st m r dn da sk
    unfold add_message
    split
    · exact Or.inl rfl
    · unfold add_message_memory
      by_cases h1 : m = "" ∧ r = "assistant"
      · rw [if_pos h1]
        exact Or.inl rfl
      · rw [if_neg h1]
        dsimp only
        cases hlast : st.memory.getLast? with
        | none =>
          right
          obtain ⟨l', hl'⟩ := trim_concat st.memory (⟨r, m, dn, da⟩ : ChatMessage)
          simp only [hl', List.getLast?_concat]
        | some last =>
          dsimp only
          by_cases h2 : last.role = r ∧ last.content = m
          · rw [if_pos h2]
            exact Or.inl rfl
          · rw [if_neg h2]
            right
            obtain ⟨l', hl'⟩ := trim_concat st.memory (⟨r, m, dn, da⟩ : ChatMessage)
            simp only [hl', List.getLast?_concat]
  · intro st heard
    unfold handle_interrupt
    split
    · exact Or.inl rfl
    · right
      exact List.getLast?_concat _

/-! ## Claim C7: interrupt memory postcondition -/

/-- C7: when the interrupt has not been handled yet and the last memory
entry is an assistant message, `handle_interrupt` truncates that entry to
the heard response followed by "..." and appends the marker entry with
role system when `interrupt_method` is system and role user otherwise. -/
theorem c7_interrupt_postcondition (st : AgentState) (heard : String) (last : ChatMessage)
    (hflag : st.interrupt_handled = false)
    (hlast : st.memory.getLast? = some last)
    (hrole : last.role = "assistant") :
    (handle_interrupt st heard).memory =
      st.memory.dropLast ++
        [{ last with content := heard ++ "..." },
         ⟨(if st.interrupt_method = "system" then "system" else "user"),
          "[Interrupted by user]", none, none⟩] := by
  unfold handle_interrupt
  rw [hflag]
  simp only [Bool.false_eq_true, if_false]
  unfold interrupted_memory
  rw [hlast]
  dsimp only
  rw [if_pos hrole]
  simp [List.append_assoc]

/-- C7 witness: interrupting with heard response "hel" over a memory
ending in an assistant entry leaves that entry equal to "hel..." followed
by the user-role marker. -/
theorem c7_interrupt_postcondition_witness :
    (handle_interrupt ⟨[⟨"assistant", "hello there", none, none⟩], false, "user"⟩ "hel").memory =
      [⟨"assistant", "hel...", none, none⟩,
       ⟨"user", "[Interrupted by user]", none, none⟩] := by
  rw [c7_interrupt_postcondition
    ⟨[⟨"assistant", "hello there", none, none⟩], false, "user"⟩ "hel"
    ⟨"assistant", "hello there", none, none⟩ rfl rfl rfl]
  decide

/-! ## Claim C9: no adjacent duplicates -/

/-- C9 counterexample: the no-adjacent-duplicates invariant fails for
sequences that include `handle_interrupt`: two assistant appends followed
by an interrupt reported as the first entry without its ellipsis truncate
the second assistant entry into a byte-identical copy of the first. -/
theorem c9_no_adjacent_duplicates_counterexample :
    (run_mem_ops "user" [.add "x..." "assistant", .add "y" "assistant",
        .interrupt "x"]).memory =
      [⟨"assistant", "x...", none, none⟩, ⟨"assistant", "x...", none, none⟩,
       ⟨"user", "[Interrupted by user]", none, none⟩] ∧
    noAdjDup (run_mem_ops "user" [.add "x..." "assistant", .add "y" "assistant",
        .interrupt "x"]).memory = false := by
  constructor
  · decide
  · decide

/-- C9 amended: the no-adjacent-duplicates invariant does hold for every
sequence consisting only of `_add_message` appends (with arbitrary
display names, avatars and skip flags) from empty memory; the duplicate
guard of `_add_message` preserves it, while `handle_interrupt` appends
without any such guard. -/
theorem c9_no_adjacent_duplicates_amended (im : String) (calls : List AddCall) :
    noAdjDup (run_adds im calls).memory = true := by
  have hbase : noAdjDup (⟨[], false, im⟩ : AgentState).memory = true := rfl
  rw [run_adds]
  generalize hst : (⟨[], false, im⟩ : AgentState) = st0
  rw [hst] at hbase
  clear hst
  induction calls generalizing st0 with
  | nil => exact hbase
  | cons c rest ih =>
    simp only [List.foldl_cons]
    exact ih _ (add_message_noAdjDup st0 c.message c.role c.dname c.davatar c.skip_memory hbase)

/-! ## Claim C10: interrupt history persistence -/

/-- C10: with a recorded conversation task and history enabled, every
call of `handle_individual_interrupt` appends to the persisted history
the raw heard response as a role-ai message followed by the role-system
marker (regardless of the agent interrupt_method, and with no "..."
suffix); a second interrupt of the same turn repeats both history
appends while leaving the agent memory untouched, because the history
writes are not guarded by the agent interrupt-handled flag. -/
theorem c10_interrupt_history_persistence (agent : AgentState) (history : List HistoryEntry)
    (heard cname : String) (cavatar : Option String) :
    (handle_individual_interrupt true true agent history heard cname cavatar).2 =
      history ++ [⟨"ai", heard, some cname, cavatar⟩,
                  ⟨"system", "[Interrupted by user]", none, none⟩] ∧
    (handle_individual_interrupt true true
        (handle_individual_interrupt true true agent history heard cname cavatar).1
        (handle_individual_interrupt true true agent history heard cname cavatar).2
        heard cname cavatar).2 =
      (handle_individual_interrupt true true agent history heard cname cavatar).2 ++
        [⟨"ai", heard, some cname, cavatar⟩,
         ⟨"system", "[Interrupted by user]", none, none⟩] ∧
    (handle_individual_interrupt true true agent history heard cname cavatar).1.interrupt_handled
      = true ∧
    (handle_individual_interrupt true true
        (handle_individual_interrupt true true agent history heard cname cavatar).1
        (handle_individual_interrupt true true agent history heard cname cavatar).2
        heard cname cavatar).1.memory =
      (handle_individual_interrupt true true agent history heard cname cavatar).1.memory := by
  refine ⟨rfl, rfl, ?_, ?_⟩
  · simp only [handle_individual_interrupt, if_true]
    exact handle_interrupt_flag agent heard
  · simp only [handle_individual_interrupt, if_true]
    rw [handle_interrupt_of_handled _ heard (handle_interrupt_flag agent heard)]

/-! ## Claim C2: prompt-mode auto-switch -/

theorem consume_stream_prompt (a : ToolAgent) (h : a.prompt_mode_flag = true) :
    ∀ evs : List LLMEvent, consume_stream a evs = (a, false) := by
  intro evs
  induction evs with
  | nil => rfl
  | cons e rest ih =>
    cases e with
    | textDelta s => simpa [consume_stream] using ih
    | apiNotSupportTools => simpa [consume_stream, h] using ih

/-- C2 counterexample: in the first turn the provider emits the
unsupported-tools sentinel, the agent switches (its second provider call
of that turn passes no tools and the flag ends the turn set); yet the
next turn of the same agent passes the native tool schemas again,
because `chat_with_memory` resets `prompt_mode_flag` at the start of
every turn. -/
theorem c2_prompt_mode_sticky_counterexample :
    (run_turn (⟨false, ["get_weather"]⟩ : ToolAgent)
        [[.apiNotSupportTools], [.textDelta "hi"]]).2 = [some ["get_weather"], none] ∧
    (run_turn (⟨false, ["get_weather"]⟩ : ToolAgent)
        [[.apiNotSupportTools], [.textDelta "hi"]]).1.prompt_mode_flag = true ∧
    (run_turn (run_turn (⟨false, ["get_weather"]⟩ : ToolAgent)
        [[.apiNotSupportTools], [.textDelta "hi"]]).1 [[.textDelta "ok"]]).2 =
      [some ["get_weather"]] := by
  refine ⟨by decide, by decide, by decide⟩

/-- C2 amended: the switch is sticky only within a turn: while
`prompt_mode_flag` is set, every remaining provider call of the loop
passes no tools and the flag stays set; but `chat_with_memory` clears the
flag again at the start of every turn, so each new turn starts in native
mode regardless of what earlier turns observed. -/
theorem c2_prompt_mode_sticky_amended :
    (∀ (a : ToolAgent) (streams : List (List LLMEvent)),
      a.prompt_mode_flag = true →
      ((interaction_loop a streams).2.all (fun o => o.isNone) = true ∧
       (interaction_loop a streams).1.prompt_mode_flag = true)) ∧
    (∀ a : ToolAgent, (start_turn a).prompt_mode_flag = false) := by
  constructor
  · intro a streams h
    cases streams with
    | nil => exact ⟨rfl, h⟩
    | cons stream rest =>
      simp only [interaction_loop, consume_stream_prompt a h stream]
      constructor
      · simp [tools_for_api, h]
      · exact h
  · intro a
    rfl

/-- C2 witness for the amended claim, at a concrete prompt-mode agent. -/
theorem c2_prompt_mode_sticky_amended_witness :
    (interaction_loop (⟨true, ["t"]⟩ : ToolAgent) [[.textDelta "x"]]).2.all
        (fun o => o.isNone) = true ∧
    (interaction_loop (⟨true, ["t"]⟩ : ToolAgent) [[.textDelta "x"]]).1.prompt_mode_flag
        = true :=
  c2_prompt_mode_sticky_amended.1 ⟨true, ["t"]⟩ [[.textDelta "x"]] rfl

/-! ## Claim C3: call_tool totality -/

theorem build_result_ne_nil (resp : ToolResponse) :
    (build_result resp).content_items ≠ [] := by
  unfold build_result
  split
  · simp
  · cases resp.content <;> simp

theorem build_result_isError (resp : ToolResponse) (h : resp.isError = true) :
    (build_result resp).content_items = [⟨"error", some (respErrText resp)⟩] := by
  unfold build_result
  rw [if_pos h]

/-- C3: `call_tool` always returns a structured result (a value of
`ToolCallResult`, which carries the metadata and content_items fields by
construction, with a non-empty item list), and whenever the call fails
(both attempts raise, or the response reports isError) the content items
are exactly one error item carrying the error text. Exceptions are
values in this embedding: every raise inside the source loop is caught
and converted, so the function is total and never propagates an error. -/
theorem c3_call_tool_total (st : MCPState) (server_name tool_name : String)
    (env : Nat → AttemptEnv) :
    (call_tool st server_name tool_name env).result.content_items ≠ [] ∧
    (call_failed st server_name env = true →
      ∃ msg, (call_tool st server_name tool_name env).result.content_items =
        [⟨"error", some msg⟩]) := by
  rcases hc1 : call_attempt st server_name (env 1) with ⟨st1, r1⟩
  cases r1 with
  | ok resp =>
    simp only [call_tool, call_failed, hc1]
    refine ⟨build_result_ne_nil resp, ?_⟩
    intro hfail
    exact ⟨respErrText resp, build_result_isError resp hfail⟩
  | error e1 =>
    rcases hc2 : call_attempt (evict_session st1 server_name) server_name (env 2) with ⟨st2, r2⟩
    cases r2 with
    | ok resp =>
      simp only [call_tool, call_failed, hc1, hc2]
      refine ⟨build_result_ne_nil resp, ?_⟩
      intro hfail
      exact ⟨respErrText resp, build_result_isError resp hfail⟩
    | error e2 =>
      simp only [call_tool, call_failed, hc1, hc2]
      exact ⟨by simp, fun _ => ⟨e2.text, rfl⟩⟩

/-- C3 witness: calling a registered server whose spawn fails on both
attempts returns a single structured error item. -/
theorem c3_call_tool_total_witness :
    ∃ msg, (call_tool ⟨[], [], ["weather"]⟩ "weather" "get_weather"
      (fun _ => ⟨false, .err "boom"⟩)).result.content_items = [⟨"error", some msg⟩] :=
  (c3_call_tool_total ⟨[], [], ["weather"]⟩ "weather" "get_weather"
    (fun _ => ⟨false, .err "boom"⟩)).2 (by decide)

/-! ## Claim C8: call_tool retry condition -/

/-- C8 counterexample: a first attempt failing with a generic
(non-transport) exception is retried all the same — the second attempt
runs and its successful response is returned. Under the claim, this call
would have made one attempt and returned an error. -/
theorem c8_retry_condition_counterexample :
    (call_tool ⟨["w"], [("w", ["t"])], ["w"]⟩ "w" "t"
      (fun n => if n = 1 then ⟨true, .err "boom"⟩
                else ⟨true, .ok ⟨false, [⟨"text", some "42"⟩], []⟩⟩)).attempts = 2 ∧
    (call_tool ⟨["w"], [("w", ["t"])], ["w"]⟩ "w" "t"
      (fun n => if n = 1 then ⟨true, .err "boom"⟩
                else ⟨true, .ok ⟨false, [⟨"text", some "42"⟩], []⟩⟩)).result.content_items =
      [⟨"text", some "42"⟩] := by
  refine ⟨by decide, by decide⟩

/-- C8 amended: `call_tool` makes at most two attempts, and the retry
happens exactly when the first attempt raised any exception — transport
errors and generic errors alike, not only transport errors. -/
theorem c8_retry_condition_amended (st : MCPState) (server_name tool_name : String)
    (env : Nat → AttemptEnv) :
    (call_tool st server_name tool_name env).attempts ≤ 2 ∧
    ((call_tool st server_name tool_name env).attempts = 2 ↔
      first_attempt_errors st server_name env = true) := by
  rcases hc1 : call_attempt st server_name (env 1) with ⟨st1, r1⟩
  cases r1 with
  | ok resp =>
    simp [call_tool, first_attempt_errors, hc1]
  | error e1 =>
    rcases hc2 : call_attempt (evict_session st1 server_name) server_name (env 2) with ⟨st2, r2⟩
    cases r2 with
    | ok resp => simp [call_tool, first_attempt_errors, hc1, hc2]
    | error e2 => simp [call_tool, first_attempt_errors, hc1, hc2]

/-! ## Claim C5: tool-listing cache / session eviction -/

theorem ensure_session_cache (st : MCPState) (server : String) (ok : Bool) :
    (ensure_session st server ok).1.list_tools_cache = st.list_tools_cache := by
  unfold ensure_session
  repeat' split
  all_goals rfl

theorem ensure_session_sessions_mono (st : MCPState) (server : String) (ok : Bool) :
    ∀ x ∈ st.active_sessions, x ∈ (ensure_session st server ok).1.active_sessions := by
  unfold ensure_session
  repeat' split
  all_goals intro x hx
  all_goals first
    | exact hx
    | exact List.mem_append_left _ hx

theorem ensure_session_ok_mem (st : MCPState) (server : String) (ok : Bool)
    (st' : MCPState) (h : ensure_session st server ok = (st', none)) :
    server ∈ st'.active_sessions := by
  unfold ensure_session at h
  split at h
  · cases h
    assumption
  · split at h
    · cases h
    · split at h
      · cases h
        exact List.mem_append_right _ (List.mem_singleton.mpr rfl)
      · cases h

theorem list_attempt_cache (st : MCPState) (server : String) (e : ListAttemptEnv) :
    (list_attempt st server e).1.list_tools_cache = st.list_tools_cache := by
  unfold list_attempt
  rcases hens : ensure_session st server e.spawnOk with ⟨st1, oe⟩
  have hc := ensure_session_cache st server e.spawnOk
  rw [hens] at hc
  dsimp only at hc
  cases oe with
  | none =>
    cases e.outcome <;> simp [hens, hc]
  | some ex => simp [hens, hc]

theorem list_attempt_sessions_mono (st : MCPState) (server : String) (e : ListAttemptEnv) :
    ∀ x ∈ st.active_sessions, x ∈ (list_attempt st server e).1.active_sessions := by
  unfold list_attempt
  rcases hens : ensure_session st server e.spawnOk with ⟨st1, oe⟩
  have hm := ensure_session_sessions_mono st server e.spawnOk
  rw [hens] at hm
  dsimp only at hm
  cases oe with
  | none =>
    cases e.outcome <;> simpa [hens] using hm
  | some ex => simpa [hens] using hm

theorem list_attempt_ok_mem (st : MCPState) (server : String) (e : ListAttemptEnv)
    (st1 : MCPState) (tools : List String)
    (h : list_attempt st server e = (st1, .ok tools)) : server ∈ st1.active_sessions := by
  unfold list_attempt at h
  rcases hens : ensure_session st server e.spawnOk with ⟨st2, oe⟩
  rw [hens] at h
  cases oe with
  | none =>
    cases ho : e.outcome with
    | error m =>
      rw [ho] at h
      cases h
    | ok t =>
      rw [ho] at h
      cases h
      exact ensure_session_ok_mem st server e.spawnOk _ hens
  | some ex => cases h

theorem cacheInv_of_mono (st st' : MCPState)
    (hc : st'.list_tools_cache = st.list_tools_cache)
    (hs : ∀ x ∈ st.active_sessions, x ∈ st'.active_sessions)
    (h : CacheInv st) : CacheInv st' := by
  intro p hp
  rw [hc] at hp
  exact hs p.1 (h p hp)

theorem cacheInv_evict (st : MCPState) (server : String) (h : CacheInv st) :
    CacheInv (evict_session (evict_cache st server) server) := by
  intro p hp
  simp only [evict_session, evict_cache, List.mem_filter, decide_eq_true_eq] at hp ⊢
  exact ⟨h p hp.1, hp.2⟩

theorem cacheInv_set (st : MCPState) (server : String) (tools : List String)
    (h : CacheInv st) (hs : server ∈ st.active_sessions) :
    CacheInv { st with list_tools_cache := cacheSet st.list_tools_cache server tools } := by
  intro p hp
  simp only at hp
  unfold cacheSet at hp
  split at hp
  · rw [List.mem_map] at hp
    obtain ⟨q, hq, hpq⟩ := hp
    by_cases hqk : q.1 = server
    · rw [if_pos hqk] at hpq
      subst hpq
      exact hs
    · rw [if_neg hqk] at hpq
      subst hpq
      exact h q hq
  · rw [List.mem_append] at hp
    cases hp with
    | inl hin => exact h p hin
    | inr hone =>
      rw [List.mem_singleton] at hone
      subst hone
      exact hs

theorem list_tools_loop_inv (server : String) :
    ∀ (envs : List ListAttemptEnv) (st : MCPState),
      CacheInv st → CacheInv (list_tools_loop server st envs).1 := by
  intro envs
  induction envs with
  | nil =>
    intro st h
    exact h
  | cons e rest ih =>
    intro st h
    rcases hla : list_attempt st server e with ⟨st1, r⟩
    have hinv1 : CacheInv st1 := by
      have hc := list_attempt_cache st server e
      have hm := list_attempt_sessions_mono st server e
      rw [hla] at hc hm
      exact cacheInv_of_mono st st1 hc hm h
    cases r with
    | ok tools =>
      simp only [list_tools_loop, hla]
      exact cacheInv_set st1 server tools hinv1 (list_attempt_ok_mem st server e st1 tools hla)
    | error ex =>
      cases rest with
      | nil =>
        simp only [list_tools_loop, hla]
        exact cacheInv_evict st1 server hinv1
      | cons e2 rest2 =>
        simp only [list_tools_loop, hla]
        exact ih _ (cacheInv_evict st1 server hinv1)

theorem call_attempt_cache (st : MCPState) (server : String) (e : AttemptEnv) :
    (call_attempt st server e).1.list_tools_cache = st.list_tools_cache := by
  unfold call_attempt
  rcases hens : ensure_session st server e.spawnOk with ⟨st1, oe⟩
  have hc := ensure_session_cache st server e.spawnOk
  rw [hens] at hc
  dsimp only at hc
  cases oe with
  | none =>
    cases e.outcome <;> simp [hens, hc]
  | some ex => simp [hens, hc]

/-- C5 counterexample: from a fresh client, a successful `list_tools`
creates the session and the cache entry; a `call_tool` whose transport
then fails on both attempts evicts the session but leaves the cache
entry, so a server ends up with a cache entry and no live session —
the eviction is not atomic across the two maps. -/
theorem c5_cache_eviction_counterexample :
    (call_tool (list_tools ⟨[], [], ["adv"]⟩ "adv"
        (fun _ => ⟨true, .ok ["play_ad"]⟩)).1
      "adv" "play_ad" (fun _ => ⟨true, .closed⟩)).state.active_sessions = [] ∧
    (call_tool (list_tools ⟨[], [], ["adv"]⟩ "adv"
        (fun _ => ⟨true, .ok ["play_ad"]⟩)).1
      "adv" "play_ad" (fun _ => ⟨true, .closed⟩)).state.list_tools_cache =
      [("adv", ["play_ad"])] ∧
    ¬ CacheInv (call_tool (list_tools ⟨[], [], ["adv"]⟩ "adv"
        (fun _ => ⟨true, .ok ["play_ad"]⟩)).1
      "adv" "play_ad" (fun _ => ⟨true, .closed⟩)).state := by
  refine ⟨by decide, by decide, by decide⟩

/-- C5 amended: within `list_tools` the eviction is atomic — every
failure path deletes the cache entry and the session together, so
`list_tools` preserves the no-cache-entry-without-live-session
invariant; `call_tool`, however, never touches the list-tools cache at
all (its failure paths evict only the session), which is what breaks the
claimed invariant. -/
theorem c5_cache_eviction_amended :
    (∀ (st : MCPState) (server_name : String) (env : Nat → ListAttemptEnv),
      CacheInv st → CacheInv (list_tools st server_name env).1) ∧
    (∀ (st : MCPState) (server_name tool_name : String) (env : Nat → AttemptEnv),
      (call_tool st server_name tool_name env).state.list_tools_cache =
        st.list_tools_cache) := by
  constructor
  · intro st server_name env h
    unfold list_tools
    cases hcl : cacheLookup st.list_tools_cache server_name with
    | some tools => exact h
    | none => exact list_tools_loop_inv server_name [env 1, env 2, env 3] st h
  · intro st server_name tool_name env
    rcases hc1 : call_attempt st server_name (env 1) with ⟨st1, r1⟩
    have h1 := call_attempt_cache st server_name (env 1)
    rw [hc1] at h1
    dsimp only at h1
    cases r1 with
    | ok resp => simp [call_tool, hc1, h1]
    | error e1 =>
      rcases hc2 : call_attempt (evict_session st1 server_name) server_name (env 2)
        with ⟨st2, r2⟩
      have h2 := call_attempt_cache (evict_session st1 server_name) server_name (env 2)
      rw [hc2] at h2
      dsimp only at h2
      have hev : (evict_session st1 server_name).list_tools_cache = st1.list_tools_cache := rfl
      cases r2 with
      | ok resp =>
        simp only [call_tool, hc1, hc2]
        rw [h2, hev, h1]
      | error e2 =>
        simp only [call_tool, hc1, hc2]
        have hev2 : (evict_session st2 server_name).list_tools_cache =
            st2.list_tools_cache := rfl
        rw [hev2, h2, hev, h1]

/-- C5 witness for the amended claim: a successful listing on a fresh
client keeps the invariant. -/
theorem c5_cache_eviction_amended_witness :
    CacheInv (list_tools ⟨[], [], ["adv"]⟩ "adv" (fun _ => ⟨true, .ok ["play_ad"]⟩)).1 :=
  c5_cache_eviction_amended.1 ⟨[], [], ["adv"]⟩ "adv" (fun _ => ⟨true, .ok ["play_ad"]⟩)
    (by decide)

/-! ## Claim C4: turn ordering -/

theorem agent_body_count_start (outputs : List AgentItem) :
    (outputs.flatMap agent_item_msgs).count OutMsg.conversationStart = 0 := by
  induction outputs with
  | nil => rfl
  | cons it rest ih =>
    cases it <;> simp [List.flatMap_cons, agent_item_msgs, List.count_cons, ih]

theorem agent_body_count_synth (outputs : List AgentItem) :
    (outputs.flatMap agent_item_msgs).count OutMsg.backendSynthComplete = 0 := by
  induction outputs with
  | nil => rfl
  | cons it rest ih =>
    cases it <;> simp [List.flatMap_cons, agent_item_msgs, List.count_cons, ih]

theorem agent_body_count_end (outputs : List AgentItem) :
    (outputs.flatMap agent_item_msgs).count OutMsg.turnEnd = 0 := by
  induction outputs with
  | nil => rfl
  | cons it rest ih =>
    cases it <;> simp [List.flatMap_cons, agent_item_msgs, List.count_cons, ih]

/-- C4 counterexample: a successful turn whose agent stream produced no
sentence outputs (hence no TTS tasks) sends conversation-start and the
turn end but no backend-synth-complete at all, because the source guards
that send with `if tts_manager.task_list:`. The claim requires exactly
one backend-synth-complete on such turns as well. -/
theorem c4_turn_ordering_counterexample :
    process_single_conversation_msgs [] = [.conversationStart, .turnEnd] ∧
    (process_single_conversation_msgs []).count .backendSynthComplete = 0 := by
  refine ⟨by decide, by decide⟩

/-- C4 amended: every successful turn sends exactly one
conversation-start first and exactly one turn-end last; when the turn
scheduled at least one TTS task, exactly one backend-synth-complete is
sent after all per-item outputs and before the turn end; when it
scheduled none, no backend-synth-complete is sent. -/
theorem c4_turn_ordering_amended (outputs : List AgentItem) :
    (process_single_conversation_msgs outputs).head? = some .conversationStart ∧
    (process_single_conversation_msgs outputs).getLast? = some .turnEnd ∧
    (process_single_conversation_msgs outputs).count .conversationStart = 1 ∧
    (process_single_conversation_msgs outputs).count .turnEnd = 1 ∧
    (0 < tts_task_count outputs →
      process_single_conversation_msgs outputs =
        .conversationStart :: outputs.flatMap agent_item_msgs
          ++ [.backendSynthComplete, .turnEnd] ∧
      (process_single_conversation_msgs outputs).count .backendSynthComplete = 1) ∧
    (tts_task_count outputs = 0 →
      process_single_conversation_msgs outputs =
        .conversationStart :: outputs.flatMap agent_item_msgs ++ [.turnEnd] ∧
      (process_single_conversation_msgs outputs).count .backendSynthComplete = 0) := by
  unfold process_single_conversation_msgs conversation_start_msgs finalize_msgs
  refine ⟨?_, ?_, ?_, ?_, ?_, ?_⟩
  · rfl
  · rw [List.getLast?_concat]
  · split <;>
      simp [List.count_append, List.count_cons, agent_body_count_start]
  · split <;>
      simp [List.count_append, List.count_cons, agent_body_count_end]
  · intro h
    rw [if_pos h]
    constructor
    · simp [List.append_assoc]
    · simp [List.count_append, List.count_cons, agent_body_count_synth]
  · intro h
    rw [if_neg (by omega)]
    constructor
    · simp [List.append_assoc]
    · simp [List.count_append, List.count_cons, agent_body_count_synth]

/-- C4 witness: a one-sentence turn produces the full claimed sequence. -/
theorem c4_turn_ordering_amended_witness :
    process_single_conversation_msgs [.sentence "Hi."] =
      .conversationStart :: ([.sentence "Hi."] : List AgentItem).flatMap agent_item_msgs
        ++ [.backendSynthComplete, .turnEnd] ∧
    (process_single_conversation_msgs [.sentence "Hi."]).count .backendSynthComplete = 1 :=
  (c4_turn_ordering_amended [.sentence "Hi."]).2.2.2.2.1 (by decide)

/-! ## Claim C6: wake transition -/

/-- C6 counterexample: the language tables are scanned chinese first, and
the chinese wake-word list contains "Aria", so the utterance
"Hey Aria, what time is it?" matches the bare word "Aria" (chinese), not
"Hey Aria"; the residue after removing the first occurrence of the
matched word is "Hey , what time is it?", not the claimed
"what time is it?". The transition, event and should_process parts do
hold. -/
theorem c6_wake_transition_counterexample :
    process_transcription true "listening" "Hey Aria, what time is it?" =
      ⟨true, "Hey , what time is it?", "active", [("wake_up", "Aria", "chinese")]⟩ ∧
    (process_transcription true "listening" "Hey Aria, what time is it?").processed_text ≠
      "what time is it?" := by
  refine ⟨by decide, by decide⟩

/-- C6 amended: with the gate enabled and the connection listening, an
utterance whose stripped text matches a wake word transitions the
connection to active, emits one wake_up event with the matched word and
language, and returns should_process with effective text equal to the
residue after (the first occurrence of) the matched wake word when that
residue is non-empty, and the localized welcome string otherwise; the
matched word is the first hit scanning chinese, english, japanese word
lists in order, so for "Hey Aria, what time is it?" it is "Aria"
(chinese) and the residue is "Hey , what time is it?". -/
theorem process_transcription_wake (text wake_word language : String)
    (h : check_wake_words (pyStrip text) = some (wake_word, language)) :
    process_transcription true "listening" text =
      if extract_remaining_text (pyStrip text) wake_word ≠ "" then
        ⟨true, extract_remaining_text (pyStrip text) wake_word, "active",
         [("wake_up", wake_word, language)]⟩
      else
        ⟨true, get_welcome_message wake_word language, "active",
         [("wake_up", wake_word, language)]⟩ := by
  unfold process_transcription
  rw [if_neg (by decide : ¬ ¬ (true = true))]
  rw [if_pos (rfl : ("listening" : String) = "listening")]
  rw [h]

theorem c6_wake_transition_amended (text wake_word language : String)
    (h : check_wake_words (pyStrip text) = some (wake_word, language)) :
    (process_transcription true "listening" text).new_state = "active" ∧
    (process_transcription true "listening" text).events =
      [("wake_up", wake_word, language)] ∧
    (process_transcription true "listening" text).should_process = true ∧
    (process_transcription true "listening" text).processed_text =
      (if extract_remaining_text (pyStrip text) wake_word ≠ "" then
        extract_remaining_text (pyStrip text) wake_word
       else get_welcome_message wake_word language) := by
  rw [process_transcription_wake text wake_word language h]
  by_cases hr : extract_remaining_text (pyStrip text) wake_word ≠ ""
  · rw [if_pos hr, if_pos hr]
    exact ⟨rfl, rfl, rfl, rfl⟩
  · rw [if_neg hr, if_neg hr]
    exact ⟨rfl, rfl, rfl, rfl⟩

/-- C6 witness: the utterance consisting of exactly the wake word "Aria"
wakes the connection and yields the localized welcome string (the
residue is empty). -/
theorem c6_wake_transition_amended_witness :
    (process_transcription true "listening" "Aria").new_state = "active" ∧
    (process_transcription true "listening" "Aria").events =
      [("wake_up", "Aria", "chinese")] ∧
    (process_transcription true "listening" "Aria").should_process = true ∧
    (process_transcription true "listening" "Aria").processed_text =
      (if extract_remaining_text (pyStrip "Aria") "Aria" ≠ "" then
        extract_remaining_text (pyStrip "Aria") "Aria"
       else get_welcome_message "Aria" "chinese") :=
  c6_wake_transition_amended "Aria" "Aria" "chinese" (by decide)
